import Mathlib

/-
Shallow embedding of the OMR grading pipeline of src/omr.py and the
claims of its specification.

The image-library primitives (cv2.findContours, cv2.contourArea,
cv2.boundingRect, cv2.countNonZero) are black boxes to the program logic: the
code only ever consumes their results.  A `Contour` therefore records,
for one external contour of the ink mask, exactly those results, and the
pipeline is embedded as a function of the contour list.  Python integers
become ℕ/ℤ, Python float arithmetic on the small exact values involved
(contour areas are half-integral, the aspect quotient and the percentage
are ratios of small integers) becomes ℚ, dictionaries built by the code
become insertion-ordered association lists, `dict.get` becomes `List.lookup`,
and code that can raise returns `Except`.
-/

namespace Omr

/-- Results of the OpenCV primitives for one external contour of the
mask: `area` is `cv2.contourArea(cnt)` (half-integral, embedded in ℚ),
`(x, y, w, h)` is `cv2.boundingRect(cnt)`, and `fill` is
`cv2.countNonZero(thresh[y:y+h, x:x+w])`, the number of foreground
pixels of the bounding box in the mask. -/
structure Contour where
  area : ℚ
  x : ℕ
  y : ℕ
  w : ℕ
  h : ℕ
  fill : ℕ
deriving DecidableEq

/-- Value stored in an answers dictionary: `choice i` stands for the
Python string `chr(65 + i)` (so `choice 0` is `"A"`), `unanswered` for
the literal string `"Unanswered"`.  Distinct codes denote distinct
Python strings, so Lean equality mirrors Python string equality. -/
inductive Answer where
  | choice : ℕ → Answer
  | unanswered : Answer
deriving DecidableEq

/-- A bounding box `(x, y, x + w, y + h)` as stored in `coords_per_row`
(src/omr.py line 119). -/
abbrev Rect := ℕ × ℕ × ℕ × ℕ

/-- The `student_answers` dictionary: 1-based question index to answer,
in insertion order. -/
abbrev AnswerKey := List (ℕ × Answer)

/-- The `coordinates` dictionary: question index to the per-row map from
option code (`i` standing for `chr(65 + i)`) to bounding box. -/
abbrev CoordinateMap := List (ℕ × List (ℕ × Rect))

instance : DecidableEq (ℕ × Rect) := inferInstance

instance : DecidableEq (List (ℕ × Rect)) := inferInstance

instance : DecidableEq (ℕ × List (ℕ × Rect)) := inferInstance

instance : DecidableEq CoordinateMap := inferInstance

instance {ε α : Type} [DecidableEq ε] [DecidableEq α] : DecidableEq (Except ε α) := fun a b =>
  match a, b with
  | Except.error e, Except.error f =>
    if h : e = f then isTrue (by rw [h]) else isFalse (fun hef => h (Except.error.inj hef))
  | Except.error _, Except.ok _ => isFalse (fun h => Except.noConfusion h)
  | Except.ok _, Except.error _ => isFalse (fun h => Except.noConfusion h)
  | Except.ok x, Except.ok y =>
    if h : x = y then isTrue (by rw [h]) else isFalse (fun hxy => h (Except.ok.inj hxy))

/-- Return value of `detect_bubbles`.  The source returns the 2-tuple
`{}, {}` at src/omr.py line 78 when no contour survives the candidate
filter, and the 3-tuple `student_answers, coordinates, num_questions`
at line 132 otherwise; the two arities are the two constructors. -/
inductive DetectResult where
  | twoTuple : DetectResult
  | found : AnswerKey → CoordinateMap → ℕ → DetectResult
deriving DecidableEq

/-- Exceptions of the modelled pipeline.  `valueError` is Python's
`ValueError`, raised when the 2-tuple of `detect_bubbles` is unpacked
into the three names of src/omr.py lines 149/159.  `zeroDivisionError`
is Python's `ZeroDivisionError`, raised by `score / total_questions`
at line 182 when `total_questions` is zero.  `configError` is the
`ConfigError` named by the specification's error taxonomy; the source
defines no such exception and never raises one — the constructor exists
only so that statements can compare the code's behaviour with the
specification's wording. -/
inductive PyError where
  | valueError : PyError
  | zeroDivisionError : PyError
  | configError : PyError
deriving DecidableEq

/-- The candidate filter of `detect_bubbles` (src/omr.py lines 66-74):
keep a contour when `500 < area < 5000` and, for its bounding box,
`0.8 <= w / float(h) <= 1.2`. -/
def bubbleFilter (c : Contour) : Bool :=
  if 500 < c.area ∧ c.area < 5000 then
    decide ((0.8 : ℚ) ≤ (c.w : ℚ) / (c.h : ℚ) ∧ (c.w : ℚ) / (c.h : ℚ) ≤ 1.2)
  else false

/-- The candidate filter as the specification words it (spec §3):
inclusive area bounds `500 ≤ area ≤ 5000` together with the aspect
bounds.  Stated from the specification only to compare with
`bubbleFilter`, which is the source's filter. -/
def specBubbleFilter (c : Contour) : Bool :=
  decide ((500 : ℚ) ≤ c.area ∧ c.area ≤ 5000 ∧
    (0.8 : ℚ) ≤ (c.w : ℚ) / (c.h : ℚ) ∧ (c.w : ℚ) / (c.h : ℚ) ≤ 1.2)

/-- `sorted(bubble_contours, key=lambda b: cv2.boundingRect(b)[1])`
(src/omr.py line 81).  Python's `sorted` is a stable sort, and the
output of a stable sort is uniquely determined by the key and the input
order, so any stable sort embeds it faithfully; insertion sort (which
keeps the original order of equal keys) is used so the definition
reduces by structural recursion. -/
def sortY (l : List Contour) : List Contour :=
  l.insertionSort fun a b => a.y ≤ b.y

/-- `sorted(row_bubbles, key=lambda b: cv2.boundingRect(b)[0])`
(src/omr.py line 108): stable sort by left-X, embedded like `sortY`. -/
def sortRowX (l : List Contour) : List Contour :=
  l.insertionSort fun a b => a.x ≤ b.x

/-- One pass of the row-grouping loop (src/omr.py lines 91-99).
`anchor` is `current_y`, the top-Y of the first blob placed in the
current row; a blob whose top-Y is within 20 of the anchor joins the
current row, otherwise the current row is closed and the blob starts a
new row with its own Y as anchor.  The trailing `rows.append(current_row)`
of line 99 is the base case. -/
def groupRowsAux : List Contour → ℕ → List Contour → List (List Contour) → List (List Contour)
  | [], _, cur, acc => acc ++ [cur]
  | b :: rest, anchor, cur, acc =>
    if ((b.y : ℤ) - (anchor : ℤ)).natAbs ≤ 20 then
      groupRowsAux rest anchor (cur ++ [b]) acc
    else
      groupRowsAux rest b.y [b] (acc ++ [cur])

/-- The row grouping of src/omr.py lines 83-99, starting from the first
sorted blob as the first row's anchor.  The source only reaches this
with a nonempty list; the `[]` case is vacuous. -/
def groupRows : List Contour → List (List Contour)
  | [] => []
  | b :: rest => groupRowsAux rest b.y [b] []

/-- Top-Y of the first blob placed in a row — the row's anchor. -/
def rowAnchorY : List Contour → ℕ
  | [] => 0
  | b :: _ => b.y

/-- Two consecutive rows are separated by an anchor gap of more than 20
pixel units. -/
def rowGap (r₁ r₂ : List Contour) : Prop :=
  20 < (((rowAnchorY r₂ : ℤ)) - ((rowAnchorY r₁ : ℤ))).natAbs

/-- The running-maximum scan of src/omr.py lines 110-123 over the fill
counts of the x-sorted blobs of one row: `i` is the enumeration index of
the next element, the accumulator is `(max_filled_pixels, selected)`.
A blob overtakes only when its fill is strictly greater
(`if filled > max_filled_pixels`). -/
def scanFrom : List ℕ → ℕ → ℕ → Option ℕ → ℕ × Option ℕ
  | [], _, m, sel => (m, sel)
  | f :: rest, i, m, sel =>
    if m < f then scanFrom rest (i + 1) f (some i)
    else scanFrom rest (i + 1) m sel

/-- Fill counts of a row's blobs in left-to-right order. -/
def rowFills (row : List Contour) : List ℕ :=
  (sortRowX row).map (·.fill)

/-- Maximum of a list of fill counts (0 on the empty list, matching the
initial `max_filled_pixels = 0`). -/
def listMax (fs : List ℕ) : ℕ :=
  fs.foldr max 0

/-- The per-row answer of src/omr.py lines 125-128: the selected option
when the winning fill count exceeds 50, `"Unanswered"` otherwise.  When
`max_filled_pixels > 50` the scan has updated at least once, so
`selected` is a real option; the `none` arm is unreachable. -/
def rowAnswer (row : List Contour) : Answer :=
  let res := scanFrom (rowFills row) 0 0 none
  if 50 < res.1 then
    match res.2 with
    | some i => Answer.choice i
    | none => Answer.unanswered
  else Answer.unanswered

/-- The bounding box `(x, y, x + w, y + h)` recorded at src/omr.py
line 119. -/
def rectOf (c : Contour) : Rect :=
  (c.x, c.y, c.x + c.w, c.y + c.h)

/-- The `coords_per_row` dictionary of one row: position `i` in the
x-sorted order (standing for `chr(65 + i)`) maps to the blob's bounding
box. -/
def rowCoords (row : List Contour) : List (ℕ × Rect) :=
  (sortRowX row).enum.map fun p => (p.1, rectOf p.2)

/-- The rows the detector builds: filter, sort by top-Y, group. -/
def rowsOf (cs : List Contour) : List (List Contour) :=
  groupRows (sortY (cs.filter bubbleFilter))

/-- `detect_bubbles` (src/omr.py lines 41-132) as a function of the
contour list of the mask. -/
def detect_bubbles (cs : List Contour) : DetectResult :=
  if (cs.filter bubbleFilter).isEmpty then
    DetectResult.twoTuple
  else
    let rows := rowsOf cs
    DetectResult.found
      (rows.enum.map fun p => (p.1 + 1, rowAnswer p.2))
      (rows.enum.map fun p => (p.1 + 1, rowCoords p.2))
      rows.length

/-- The four counters of src/omr.py lines 165-168. -/
structure Counts where
  score : ℕ
  correct : ℕ
  incorrect : ℕ
  unanswered : ℕ
deriving DecidableEq

/-- One iteration of the grading loop (src/omr.py lines 170-180) at
question index `q`: `student q` is `student_answers.get(q)`,
`correct q` is `correct_answers.get(q)`. -/
def gradeStep (student correct : ℕ → Option Answer) (c : Counts) (q : ℕ) : Counts :=
  if student q = correct q then
    { c with score := c.score + 1, correct := c.correct + 1 }
  else if student q = some Answer.unanswered then
    { c with unanswered := c.unanswered + 1 }
  else
    { c with incorrect := c.incorrect + 1 }

/-- The grading loop over `range(1, total_questions + 1)`. -/
def gradeCounts (student correct : ℕ → Option Answer) (total : ℕ) : Counts :=
  (List.range' 1 total).foldl (gradeStep student correct) ⟨0, 0, 0, 0⟩

/-- The grading fields written into the result record
(src/omr.py lines 182-188). -/
structure GradingResult where
  score : ℕ
  percentage : ℚ
  correct_count : ℕ
  incorrect_count : ℕ
  unanswered_count : ℕ
deriving DecidableEq

/-- The grading section of `process_sheet` (src/omr.py lines 165-188):
run the counting loop, then compute `percentage = (score / total_questions)
* 100`.  Python raises `ZeroDivisionError` there when `total_questions`
is zero; otherwise the division is exact rational arithmetic. -/
def grade (student correct : ℕ → Option Answer) (total : ℕ) : Except PyError GradingResult :=
  let c := gradeCounts student correct total
  if total = 0 then Except.error PyError.zeroDivisionError
  else Except.ok ⟨c.score, (c.score : ℚ) / (total : ℚ) * 100, c.correct, c.incorrect, c.unanswered⟩

/-- The result record of `process_sheet`: the student fields are always
present, the key/grading fields only when a key sheet was given. -/
structure ProcessResult where
  student_answers : AnswerKey
  coordinates : CoordinateMap
  graded : Option (AnswerKey × ℕ × GradingResult)
deriving DecidableEq

/-- The tuple unpacking `a, b, c = detect_bubbles(...)` of src/omr.py
lines 149 and 159: a 2-tuple raises `ValueError` (not enough values to
unpack, expected 3), a 3-tuple binds the three names. -/
def unpack3 : DetectResult → Except PyError (AnswerKey × CoordinateMap × ℕ)
  | DetectResult.twoTuple => Except.error PyError.valueError
  | DetectResult.found a c n => Except.ok (a, c, n)

/-- `process_sheet` (src/omr.py lines 137-190) as a function of the
contour lists of the two preprocessed sheets; `keyContours = none` is
the `correct_sheet_path=None` call. -/
def process_sheet (studentContours : List Contour) (keyContours : Option (List Contour)) :
    Except PyError ProcessResult := do
  let (sa, coords, _) ← unpack3 (detect_bubbles studentContours)
  match keyContours with
  | none => return ⟨sa, coords, none⟩
  | some kc =>
    let (ca, _, kq) ← unpack3 (detect_bubbles kc)
    let g ← grade (fun q => sa.lookup q) (fun q => ca.lookup q) kq
    return ⟨sa, coords, some (ca, kq, g)⟩

/-- A contour that passes the candidate filter (area 600, box 30 × 30),
with fill count 60. -/
def cGood : Contour := ⟨600, 0, 0, 30, 30, 60⟩

/-- A contour whose area 10 fails the candidate filter. -/
def cBad : Contour := ⟨10, 0, 0, 30, 30, 0⟩

/-- The key map of the specification's worked example:
`{1:'A', 2:'B', 3:'C'}`. -/
def key7 : ℕ → Option Answer := fun q =>
  ([(1, Answer.choice 0), (2, Answer.choice 1), (3, Answer.choice 2)] : List (ℕ × Answer)).lookup q

/-- The student map of the specification's worked example:
`{1:'A', 2:'C', 3:'Unanswered'}`. -/
def stud7 : ℕ → Option Answer := fun q =>
  ([(1, Answer.choice 0), (2, Answer.choice 2), (3, Answer.unanswered)] : List (ℕ × Answer)).lookup q

/-- The float inequalities `0.8 <= w/h <= 1.2` are, for a positive
height, the integer inequalities `4h ≤ 5w` and `5w ≤ 6h`. -/
lemma aspect_iff (w h : ℕ) (hpos : 0 < h) :
    ((0.8 : ℚ) ≤ (w : ℚ) / (h : ℚ) ∧ (w : ℚ) / (h : ℚ) ≤ 1.2) ↔
      (4 * h ≤ 5 * w ∧ 5 * w ≤ 6 * h) := by
  have hq : (0 : ℚ) < (h : ℚ) := by exact_mod_cast hpos
  rw [le_div_iff₀ hq, div_le_iff₀ hq]
  constructor
  · rintro ⟨h1, h2⟩
    constructor
    · have : (4 : ℚ) * h ≤ 5 * w := by linarith
      exact_mod_cast this
    · have : (5 : ℚ) * w ≤ 6 * h := by linarith
      exact_mod_cast this
  · rintro ⟨h1, h2⟩
    have h1q : (4 : ℚ) * h ≤ 5 * w := by exact_mod_cast h1
    have h2q : (5 : ℚ) * w ≤ 6 * h := by exact_mod_cast h2
    constructor <;> linarith

/-- Division-free characterization of the source's candidate filter.
A bounding rectangle of a real contour has positive height; a zero
height would make Python raise at `w / float(h)`, while here the ℚ
convention `w / 0 = 0` falls outside `[0.8, 1.2]`, so the filter also
rejects it. -/
lemma bubbleFilter_true_iff (c : Contour) :
    bubbleFilter c = true ↔
      (500 < c.area ∧ c.area < 5000 ∧ 0 < c.h ∧ 4 * c.h ≤ 5 * c.w ∧ 5 * c.w ≤ 6 * c.h) := by
  unfold bubbleFilter
  rcases Nat.eq_zero_or_pos c.h with h0 | hpos
  · rw [h0]
    simp only [Nat.cast_zero, div_zero]
    constructor
    · intro h
      exfalso
      split at h
      · rw [decide_eq_true_eq] at h
        have := h.1
        norm_num at this
      · exact Bool.false_ne_true h
    · rintro ⟨-, -, h, -⟩
      exact absurd h (lt_irrefl 0)
  · split
    case isTrue hA =>
      rw [decide_eq_true_eq, aspect_iff c.w c.h hpos]
      constructor
      · rintro ⟨h1, h2⟩
        exact ⟨hA.1, hA.2, hpos, h1, h2⟩
      · rintro ⟨-, -, -, h1, h2⟩
        exact ⟨h1, h2⟩
    case isFalse hA =>
      constructor
      · intro h
        exact absurd h (Bool.false_ne_true)
      · rintro ⟨h1, h2, -, -, -⟩
        exact absurd ⟨h1, h2⟩ hA

/-- The example contour `cGood` passes the source's filter. -/
lemma cGood_filter : bubbleFilter cGood = true :=
  (bubbleFilter_true_iff cGood).2 (by norm_num [cGood])

lemma rowAnchorY_append (cur : List Contour) (b : Contour) (h : cur ≠ []) :
    rowAnchorY (cur ++ [b]) = rowAnchorY cur := by
  cases cur with
  | nil => exact absurd rfl h
  | cons a t => rfl

lemma groupRowsAux_spec (rest : List Contour) :
    ∀ (anchor : ℕ) (cur : List Contour) (acc : List (List Contour)),
      cur ≠ [] → rowAnchorY cur = anchor →
      (∀ b ∈ cur, ((b.y : ℤ) - (anchor : ℤ)).natAbs ≤ 20) →
      (∀ r ∈ acc, r ≠ [] ∧ ∀ b ∈ r, ((b.y : ℤ) - (rowAnchorY r : ℤ)).natAbs ≤ 20) →
      List.Chain' rowGap (acc ++ [cur]) →
      (groupRowsAux rest anchor cur acc).flatten = acc.flatten ++ cur ++ rest ∧
      (∀ r ∈ groupRowsAux rest anchor cur acc, r ≠ [] ∧
        ∀ b ∈ r, ((b.y : ℤ) - (rowAnchorY r : ℤ)).natAbs ≤ 20) ∧
      List.Chain' rowGap (groupRowsAux rest anchor cur acc) := by
  induction rest with
  | nil =>
    intro anchor cur acc hcur hanchor hin hacc hchain
    unfold groupRowsAux
    refine ⟨by simp, ?_, hchain⟩
    intro r hr
    rw [List.mem_append] at hr
    rcases hr with hr | hr
    · exact hacc r hr
    · rw [List.mem_singleton] at hr
      subst hr
      refine ⟨hcur, ?_⟩
      rw [hanchor]
      exact hin
  | cons b rest ih =>
    intro anchor cur acc hcur hanchor hin hacc hchain
    unfold groupRowsAux
    split
    case isTrue hle =>
      have hne : cur ++ [b] ≠ [] := by simp
      have hanch : rowAnchorY (cur ++ [b]) = anchor := by
        rw [rowAnchorY_append cur b hcur, hanchor]
      have hin2 : ∀ x ∈ cur ++ [b], ((x.y : ℤ) - (anchor : ℤ)).natAbs ≤ 20 := by
        intro x hx
        rw [List.mem_append, List.mem_singleton] at hx
        rcases hx with hx | rfl
        · exact hin x hx
        · exact hle
      have hchain2 : List.Chain' rowGap (acc ++ [cur ++ [b]]) := by
        rw [List.chain'_append] at hchain ⊢
        refine ⟨hchain.1, List.chain'_singleton _, ?_⟩
        intro x hx y hy
        simp only [List.head?_cons, Option.mem_def, Option.some.injEq] at hy
        subst hy
        have := hchain.2.2 x hx cur (by simp)
        unfold rowGap at this ⊢
        rw [rowAnchorY_append cur b hcur]
        exact this
      obtain ⟨h1, h2, h3⟩ := ih anchor (cur ++ [b]) acc hne hanch hin2 hacc hchain2
      refine ⟨?_, h2, h3⟩
      rw [h1]
      simp
    case isFalse hgt =>
      have hacc2 : ∀ r ∈ acc ++ [cur], r ≠ [] ∧
          ∀ x ∈ r, ((x.y : ℤ) - (rowAnchorY r : ℤ)).natAbs ≤ 20 := by
        intro r hr
        rw [List.mem_append, List.mem_singleton] at hr
        rcases hr with hr | rfl
        · exact hacc r hr
        · refine ⟨hcur, ?_⟩
          rw [hanchor]
          exact hin
      have hchain2 : List.Chain' rowGap ((acc ++ [cur]) ++ [[b]]) := by
        rw [List.chain'_append]
        refine ⟨hchain, List.chain'_singleton _, ?_⟩
        intro x hx y hy
        simp only [List.head?_cons, Option.mem_def, Option.some.injEq] at hy
        subst hy
        rw [List.getLast?_concat, Option.mem_def, Option.some.injEq] at hx
        subst hx
        unfold rowGap
        rw [hanchor]
        show 20 < ((b.y : ℤ) - (anchor : ℤ)).natAbs
        omega
      obtain ⟨h1, h2, h3⟩ := ih b.y [b] (acc ++ [cur]) (by simp) rfl (by simp) hacc2 hchain2
      refine ⟨?_, h2, h3⟩
      rw [h1]
      simp

lemma groupRows_spec (l : List Contour) (hl : l ≠ []) :
    (groupRows l).flatten = l ∧
    (∀ r ∈ groupRows l, r ≠ [] ∧ ∀ b ∈ r, ((b.y : ℤ) - (rowAnchorY r : ℤ)).natAbs ≤ 20) ∧
    List.Chain' rowGap (groupRows l) := by
  cases l with
  | nil => exact absurd rfl hl
  | cons b rest =>
    unfold groupRows
    have h := groupRowsAux_spec rest b.y [b] [] (by simp) rfl (by simp) (by simp)
      (by simp)
    simpa using h

lemma listMax_cons (f : ℕ) (fs : List ℕ) : listMax (f :: fs) = max f (listMax fs) := rfl

lemma scanFrom_fst (fs : List ℕ) :
    ∀ (i m : ℕ) (sel : Option ℕ), (scanFrom fs i m sel).1 = max m (listMax fs) := by
  induction fs with
  | nil =>
    intro i m sel
    simp [scanFrom, listMax]
  | cons f rest ih =>
    intro i m sel
    rw [listMax_cons]
    unfold scanFrom
    split
    case isTrue h =>
      rw [ih]
      omega
    case isFalse h =>
      rw [ih]
      omega

lemma scanFrom_snd_of_le (fs : List ℕ) :
    ∀ (i m : ℕ) (sel : Option ℕ), listMax fs ≤ m → (scanFrom fs i m sel).2 = sel := by
  induction fs with
  | nil =>
    intro i m sel _
    rfl
  | cons f rest ih =>
    intro i m sel h
    rw [listMax_cons] at h
    unfold scanFrom
    split
    case isTrue hlt => omega
    case isFalse hlt => exact ih (i + 1) m sel (by omega)

lemma scanFrom_snd_of_lt (fs : List ℕ) :
    ∀ (i m : ℕ) (sel : Option ℕ), m < listMax fs →
      ∃ p, p < fs.length ∧ fs.getD p 0 = listMax fs ∧
        (∀ j, j < p → fs.getD j 0 < listMax fs) ∧
        (scanFrom fs i m sel).2 = some (i + p) := by
  induction fs with
  | nil =>
    intro i m sel h
    simp [listMax] at h
  | cons f rest ih =>
    intro i m sel h
    rw [listMax_cons] at h ⊢
    unfold scanFrom
    split
    case isTrue hmf =>
      rcases Nat.le_total (listMax rest) f with hrf | hfr
      · -- the head is the overall maximum: it is selected and survives
        refine ⟨0, by simp, ?_, ?_, ?_⟩
        · simp
          omega
        · intro j hj
          omega
        · rw [scanFrom_snd_of_le rest (i + 1) f (some i) hrf]
          simp
      · rcases Nat.eq_or_lt_of_le hfr with heq | hlt
        · -- equal: the head is still the first maximum
          refine ⟨0, by simp, ?_, ?_, ?_⟩
          · simp
            omega
          · intro j hj
            omega
          · rw [scanFrom_snd_of_le rest (i + 1) f (some i) (by omega)]
            simp
        · -- a later element is strictly greater
          obtain ⟨p, hp1, hp2, hp3, hp4⟩ := ih (i + 1) f (some i) hlt
          refine ⟨p + 1, by simpa using hp1, ?_, ?_, ?_⟩
          · rw [List.getD_cons_succ, hp2]
            omega
          · intro j hj
            cases j with
            | zero =>
              rw [List.getD_cons_zero]
              omega
            | succ k =>
              rw [List.getD_cons_succ]
              have := hp3 k (by omega)
              omega
          · rw [hp4]
            congr 1
            omega
    case isFalse hmf =>
      have hm : m < listMax rest := by omega
      obtain ⟨p, hp1, hp2, hp3, hp4⟩ := ih (i + 1) m sel hm
      refine ⟨p + 1, by simpa using hp1, ?_, ?_, ?_⟩
      · rw [List.getD_cons_succ, hp2]
        omega
      · intro j hj
        cases j with
        | zero =>
          rw [List.getD_cons_zero]
          omega
        | succ k =>
          rw [List.getD_cons_succ]
          have := hp3 k (by omega)
          omega
      · rw [hp4]
        congr 1
        omega

lemma rowAnswer_unanswered (row : List Contour) (h : listMax (rowFills row) ≤ 50) :
    rowAnswer row = Answer.unanswered := by
  unfold rowAnswer
  simp only [scanFrom_fst, Nat.zero_max]
  rw [if_neg (by omega)]

lemma rowAnswer_selected (row : List Contour) (h : 50 < listMax (rowFills row)) :
    ∃ p, p < (rowFills row).length ∧
      (rowFills row).getD p 0 = listMax (rowFills row) ∧
      (∀ j, j < p → (rowFills row).getD j 0 < listMax (rowFills row)) ∧
      rowAnswer row = Answer.choice p := by
  obtain ⟨p, hp1, hp2, hp3, hp4⟩ := scanFrom_snd_of_lt (rowFills row) 0 0 none (by omega)
  refine ⟨p, hp1, hp2, hp3, ?_⟩
  unfold rowAnswer
  simp only [scanFrom_fst, Nat.zero_max]
  rw [if_pos (by omega)]
  simp only [Nat.zero_add] at hp4
  rw [hp4]

lemma gradeStep_sum (s c : ℕ → Option Answer) (x : Counts) (q : ℕ) :
    (gradeStep s c x q).correct + (gradeStep s c x q).incorrect + (gradeStep s c x q).unanswered
      = x.correct + x.incorrect + x.unanswered + 1 := by
  unfold gradeStep
  split
  · dsimp only
    omega
  · split
    · dsimp only
      omega
    · dsimp only
      omega

lemma gradeCounts_succ (s c : ℕ → Option Answer) (n : ℕ) :
    gradeCounts s c (n + 1) = gradeStep s c (gradeCounts s c n) (1 + n) := by
  unfold gradeCounts
  rw [List.range'_concat, List.foldl_append, one_mul]
  rfl

lemma gradeCounts_sum (s c : ℕ → Option Answer) (n : ℕ) :
    (gradeCounts s c n).correct + (gradeCounts s c n).incorrect
      + (gradeCounts s c n).unanswered = n := by
  induction n with
  | zero => rfl
  | succ k ih => rw [gradeCounts_succ, gradeStep_sum, ih]

lemma gradeStep_absent (s c : ℕ → Option Answer) (x : Counts) (q : ℕ)
    (hs : s q = none) (hc : (c q).isSome = true) :
    gradeStep s c x q = { x with incorrect := x.incorrect + 1 } := by
  unfold gradeStep
  rw [Option.isSome_iff_exists] at hc
  obtain ⟨v, hv⟩ := hc
  rw [hs, hv, if_neg (by simp), if_neg (by simp)]

lemma gradeCounts_empty_student (c : ℕ → Option Answer) (n : ℕ)
    (hc : ∀ q, 1 ≤ q → q ≤ n → (c q).isSome = true) :
    gradeCounts (fun _ => none) c n = ⟨0, 0, n, 0⟩ := by
  induction n with
  | zero => rfl
  | succ k ih =>
    rw [gradeCounts_succ, ih (fun q h1 h2 => hc q h1 (by omega)),
      gradeStep_absent _ c _ (1 + k) rfl (hc (1 + k) (by omega) (by omega))]

lemma map_fst_enumMap {α β : Type} (g : α → β) :
    ∀ (l : List α) (k : ℕ),
      ((List.enumFrom k l).map fun p => (p.1 + 1, g p.2)).map Prod.fst
        = List.range' (k + 1) l.length := by
  intro l
  induction l with
  | nil =>
    intro k
    rfl
  | cons a t ih =>
    intro k
    rw [List.enumFrom_cons, List.map_cons, List.map_cons, List.length_cons,
      List.range'_succ, ih (k + 1)]

lemma rowCoords_keys (row : List Contour) :
    (rowCoords row).map Prod.fst = List.range (sortRowX row).length := by
  unfold rowCoords
  rw [List.map_map]
  have h : (Prod.fst ∘ fun p : ℕ × Contour => (p.1, rectOf p.2)) = Prod.fst := rfl
  rw [h, List.enum_map_fst]

lemma rowCoords_vals (row : List Contour) :
    (rowCoords row).map Prod.snd = (sortRowX row).map rectOf := by
  unfold rowCoords
  rw [List.map_map]
  have h : (Prod.snd ∘ fun p : ℕ × Contour => (p.1, rectOf p.2))
      = rectOf ∘ Prod.snd := rfl
  rw [h, ← List.map_map, List.enum_map_snd]

/-- Unfolding of `detect_bubbles` when at least one contour survives the
filter: the 3-tuple of answers, coordinates and row count. -/
lemma detect_bubbles_found (cs : List Contour) (h : cs.filter bubbleFilter ≠ []) :
    detect_bubbles cs = DetectResult.found
      ((rowsOf cs).enum.map fun p => (p.1 + 1, rowAnswer p.2))
      ((rowsOf cs).enum.map fun p => (p.1 + 1, rowCoords p.2))
      (rowsOf cs).length := by
  unfold detect_bubbles
  rw [if_neg]
  rw [List.isEmpty_iff]
  exact h

/-- Unfolding of the grading section for a nonzero question count. -/
lemma grade_ok (s c : ℕ → Option Answer) (n : ℕ) (hn : n ≠ 0) :
    grade s c n = Except.ok ⟨(gradeCounts s c n).score,
      ((gradeCounts s c n).score : ℚ) / (n : ℚ) * 100,
      (gradeCounts s c n).correct, (gradeCounts s c n).incorrect,
      (gradeCounts s c n).unanswered⟩ := by
  unfold grade
  rw [if_neg hn]

/-- Evaluation of the grading section on the specification's worked
example: key `{1:'A', 2:'B', 3:'C'}`, student `{1:'A', 2:'C',
3:'Unanswered'}`. -/
lemma grade_example_eval : grade stud7 key7 3 = Except.ok ⟨1, 100/3, 1, 1, 1⟩ := by
  have h : gradeCounts stud7 key7 3 = ⟨1, 1, 1, 1⟩ := by decide
  rw [grade_ok stud7 key7 3 (by omega), h]
  norm_num

/-- Claim C1 (code-bug evidence): on a student mask in which no contour
passes the bubble-candidate filter — no contours at all, or a lone
too-small contour — `detect_bubbles` returns the bare 2-tuple of
src/omr.py line 78 rather than the claimed `({}, {}, 0)` triple, and
`process_sheet` consequently raises `ValueError` at the three-name
unpacking of line 149 (with or without a key sheet) instead of
succeeding. -/
theorem c1_zero_candidates_code_bug :
    detect_bubbles [] = DetectResult.twoTuple ∧
    detect_bubbles [cBad] = DetectResult.twoTuple ∧
    DetectResult.twoTuple ≠ DetectResult.found [] [] 0 ∧
    process_sheet [] none = Except.error PyError.valueError ∧
    process_sheet [cBad] none = Except.error PyError.valueError ∧
    process_sheet [cBad] (some [cGood]) = Except.error PyError.valueError := by
  refine ⟨rfl, by decide, by decide, rfl, by decide, by decide⟩

/-- Claim C2 (amended): the grading section of `process_sheet` fails if
and only if the detected key question count is zero, and the failure is
Python's `ZeroDivisionError` raised at `percentage = (score /
total_questions) * 100` after the counting loop — the code defines no
`ConfigError`; for every nonzero count grading succeeds and raises
nothing. -/
theorem c2_grade_fails_iff_zero (s c : ℕ → Option Answer) (n : ℕ) :
    (n = 0 → grade s c n = Except.error PyError.zeroDivisionError) ∧
    (n ≠ 0 → ∃ r, grade s c n = Except.ok r) ∧
    (∀ e, grade s c n = Except.error e → e = PyError.zeroDivisionError) := by
  refine ⟨?_, ?_, ?_⟩
  · intro hn
    unfold grade
    rw [if_pos hn]
  · intro hn
    exact ⟨_, grade_ok s c n hn⟩
  · intro e he
    by_cases hn : n = 0
    · unfold grade at he
      rw [if_pos hn] at he
      exact (Except.error.inj he).symm
    · rw [grade_ok s c n hn] at he
      exact absurd he (by simp)

/-- Claim C2 witness: the amended theorem at the concrete counts 0
and 3. -/
theorem c2_witness :
    grade (fun _ => none) (fun _ => none) 0 = Except.error PyError.zeroDivisionError ∧
    ∃ r, grade (fun _ => none) (fun _ => none) 3 = Except.ok r :=
  ⟨(c2_grade_fails_iff_zero (fun _ => none) (fun _ => none) 0).1 rfl,
    (c2_grade_fails_iff_zero (fun _ => none) (fun _ => none) 3).2.1 (by omega)⟩

/-- Claim C2 counterexample: at key question count zero the code fails
with `ZeroDivisionError`, which is not the `ConfigError` the claim
names. -/
theorem c2_counterexample :
    grade (fun _ => none) (fun _ => none) 0 = Except.error PyError.zeroDivisionError ∧
    (Except.error PyError.zeroDivisionError : Except PyError GradingResult) ≠
      Except.error PyError.configError :=
  ⟨rfl, by decide⟩

/-- Claim C3 counterexample: a contour of area exactly 500 with a
30 × 30 bounding box is discarded by the source's strict filter
(`500 < area < 5000`), although the claim's inclusive bounds — stated
verbatim as `specBubbleFilter` — accept it. -/
theorem c3_counterexample :
    bubbleFilter ⟨500, 0, 0, 30, 30, 0⟩ = false ∧
    specBubbleFilter ⟨500, 0, 0, 30, 30, 0⟩ = true := by
  constructor
  · rw [← Bool.not_eq_true]
    simp only [bubbleFilter_true_iff]
    norm_num
  · unfold specBubbleFilter
    rw [decide_eq_true_eq]
    norm_num

/-- Claim C3 (amended): a contour is kept as a bubble candidate iff its
area satisfies the strict bounds `500 < area < 5000` and its bounding
box (of positive height) has aspect `0.8 ≤ w/h ≤ 1.2`, written here in
the equivalent cross-multiplied integer form. -/
theorem c3_filter_iff (c : Contour) (hh : 0 < c.h) :
    bubbleFilter c = true ↔
      (500 < c.area ∧ c.area < 5000 ∧ 4 * c.h ≤ 5 * c.w ∧ 5 * c.w ≤ 6 * c.h) := by
  rw [bubbleFilter_true_iff]
  constructor
  · rintro ⟨h1, h2, -, h4, h5⟩
    exact ⟨h1, h2, h4, h5⟩
  · rintro ⟨h1, h2, h4, h5⟩
    exact ⟨h1, h2, hh, h4, h5⟩

/-- Claim C3 witness: the amended filter characterization applied to the
concrete passing contour `cGood`. -/
theorem c3_witness : bubbleFilter cGood = true :=
  (c3_filter_iff cGood (by decide)).2 (by norm_num [cGood])

/-- A nonempty three-blob list for exercising the grouping: two blobs
within 20 pixel units of the first, one further down. -/
def l4w : List Contour :=
  [⟨600, 0, 0, 30, 30, 60⟩, ⟨600, 0, 10, 30, 30, 0⟩, ⟨600, 0, 40, 30, 30, 0⟩]

/-- Claim C4: grouping over the Y-sorted candidate list starts a new row
exactly when the next blob's top-Y differs from the current row's anchor
(the Y of the first blob placed in that row) by more than 20 pixel
units: the produced rows concatenate back to the input in order, every
blob lies within 20 of its row's anchor, consecutive rows' anchors are
more than 20 apart, and `detect_bubbles` returns the number of rows as
`question_count`, row order (top to bottom) being question order. -/
theorem c4_row_grouping (l : List Contour) (hl : l ≠ []) :
    (groupRows l).flatten = l ∧
    (∀ r ∈ groupRows l, r ≠ [] ∧ ∀ b ∈ r, ((b.y : ℤ) - (rowAnchorY r : ℤ)).natAbs ≤ 20) ∧
    List.Chain' rowGap (groupRows l) ∧
    (∀ cs : List Contour, cs.filter bubbleFilter ≠ [] →
      detect_bubbles cs = DetectResult.found
        ((rowsOf cs).enum.map fun p => (p.1 + 1, rowAnswer p.2))
        ((rowsOf cs).enum.map fun p => (p.1 + 1, rowCoords p.2))
        (rowsOf cs).length) := by
  obtain ⟨h1, h2, h3⟩ := groupRows_spec l hl
  exact ⟨h1, h2, h3, fun cs hcs => detect_bubbles_found cs hcs⟩

/-- Claim C4 witness: the grouping characterization on a concrete
three-blob list and the detector's row count on a concrete mask. -/
theorem c4_witness :
    (groupRows l4w).flatten = l4w ∧
    List.Chain' rowGap (groupRows l4w) ∧
    detect_bubbles [cGood] = DetectResult.found
      ((rowsOf [cGood]).enum.map fun p => (p.1 + 1, rowAnswer p.2))
      ((rowsOf [cGood]).enum.map fun p => (p.1 + 1, rowCoords p.2))
      (rowsOf [cGood]).length :=
  ⟨(c4_row_grouping l4w (by decide)).1,
    (c4_row_grouping l4w (by decide)).2.2.1,
    (c4_row_grouping l4w (by decide)).2.2.2 [cGood]
      (by simp [List.filter_cons, cGood_filter])⟩

/-- Claim C5: if the maximum fill intensity over a row's blobs is at
most 50 the question is recorded Unanswered; if it exceeds 50 the
winning option — one whose fill attains the row maximum — is
recorded. -/
theorem c5_fill_threshold (row : List Contour) :
    (listMax (rowFills row) ≤ 50 → rowAnswer row = Answer.unanswered) ∧
    (50 < listMax (rowFills row) → ∃ p, rowAnswer row = Answer.choice p ∧
      p < (rowFills row).length ∧ (rowFills row).getD p 0 = listMax (rowFills row)) := by
  constructor
  · exact rowAnswer_unanswered row
  · intro h
    obtain ⟨p, hp1, hp2, hp3, hp4⟩ := rowAnswer_selected row h
    exact ⟨p, hp4, hp1, hp2⟩

/-- A singleton row whose only bubble has exactly 50 filled pixels. -/
def c50row : List Contour := [⟨600, 0, 0, 30, 30, 50⟩]

/-- A singleton row whose only bubble has exactly 51 filled pixels. -/
def c51row : List Contour := [⟨600, 0, 0, 30, 30, 51⟩]

/-- Claim C5 witness: the boundary — a best bubble of exactly 50 filled
pixels is Unanswered, one of 51 is selected. -/
theorem c5_witness :
    rowAnswer c50row = Answer.unanswered ∧ rowAnswer c51row = Answer.choice 0 := by
  constructor
  · exact (c5_fill_threshold c50row).1 (by decide)
  · obtain ⟨p, hp1, hp2, hp3⟩ := (c5_fill_threshold c51row).2 (by decide)
    have hlen : (rowFills c51row).length = 1 := by decide
    rw [hlen] at hp2
    rw [show p = 0 by omega] at hp1
    exact hp1

/-- Claim C6: scanning a row left to right, the running maximum is
overtaken only by a strictly greater fill intensity: the selected index
is the first index attaining the row maximum, so with equal intensities
the earlier (leftmost) blob keeps the win, while any later strictly
greater intensity takes it. -/
theorem c6_first_max_wins (row : List Contour) (h : 0 < listMax (rowFills row)) :
    ∃ p, (scanFrom (rowFills row) 0 0 none).2 = some p ∧
      p < (rowFills row).length ∧
      (rowFills row).getD p 0 = listMax (rowFills row) ∧
      ∀ j, j < p → (rowFills row).getD j 0 < listMax (rowFills row) := by
  obtain ⟨p, hp1, hp2, hp3, hp4⟩ := scanFrom_snd_of_lt (rowFills row) 0 0 none h
  refine ⟨p, ?_, hp1, hp2, hp3⟩
  rw [hp4, Nat.zero_add]

/-- A row with a tie: fills 5, 5, 3 from left to right. -/
def rowTie : List Contour :=
  [⟨600, 0, 0, 30, 30, 5⟩, ⟨600, 10, 0, 30, 30, 5⟩, ⟨600, 20, 0, 30, 30, 3⟩]

/-- Claim C6 witness: with equal leading intensities 5, 5 the scan
selects the leftmost index 0. -/
theorem c6_witness : (scanFrom (rowFills rowTie) 0 0 none).2 = some 0 := by
  obtain ⟨p, hp1, hp2, hp3, hp4⟩ := c6_first_max_wins rowTie (by decide)
  cases p with
  | zero => exact hp1
  | succ k =>
    exfalso
    have h0 := hp4 0 (Nat.succ_pos k)
    have h5 : (rowFills rowTie).getD 0 0 = 5 := by decide
    have hm : listMax (rowFills rowTie) = 5 := by decide
    rw [h5, hm] at h0
    exact lt_irrefl 5 h0

/-- Claim C7 counterexample: on the worked example — key
`{1:'A', 2:'B', 3:'C'}`, student `{1:'A', 2:'C', 3:'Unanswered'}` —
grading yields score 1 and counts 1/1/1 as claimed, but the stored
percentage is exactly 100/3 = 33.333…, which is not 33.33. -/
theorem c7_counterexample :
    grade stud7 key7 3 = Except.ok ⟨1, 100/3, 1, 1, 1⟩ ∧
    (100 : ℚ) / 3 ≠ 3333 / 100 :=
  ⟨grade_example_eval, by norm_num⟩

/-- Claim C7 (amended): the reported percentage equals
`score / keyQuestionCount * 100` exactly; on the worked example this is
100/3 (33.33 only after rounding to two decimals). -/
theorem c7_percentage (s c : ℕ → Option Answer) (n : ℕ) (r : GradingResult)
    (h : grade s c n = Except.ok r) :
    r.percentage = (r.score : ℚ) / (n : ℚ) * 100 := by
  unfold grade at h
  split at h
  · exact absurd h (by simp)
  · rw [← Except.ok.inj h]

/-- Claim C7 witness: the percentage formula evaluated on the worked
example's grading result. -/
theorem c7_witness :
    (⟨1, 100/3, 1, 1, 1⟩ : GradingResult).percentage
      = (((⟨1, 100/3, 1, 1, 1⟩ : GradingResult).score : ℚ) / (3 : ℚ)) * 100 :=
  c7_percentage stud7 key7 3 ⟨1, 100/3, 1, 1, 1⟩ grade_example_eval

/-- Claim C8: each loop iteration increments exactly one of the three
counters, so for every key question count N ≥ 1 grading succeeds with
`correct_count + incorrect_count + unanswered_count = N`. -/
theorem c8_counters_sum (s c : ℕ → Option Answer) (n : ℕ) (hn : 1 ≤ n) :
    (∀ x q, (gradeStep s c x q).correct + (gradeStep s c x q).incorrect
        + (gradeStep s c x q).unanswered = x.correct + x.incorrect + x.unanswered + 1) ∧
    ∃ r, grade s c n = Except.ok r ∧
      r.correct_count + r.incorrect_count + r.unanswered_count = n := by
  refine ⟨fun x q => gradeStep_sum s c x q, ⟨_, grade_ok s c n (by omega), ?_⟩⟩
  exact gradeCounts_sum s c n

/-- Claim C8 witness: the counters of the worked example sum to 3. -/
theorem c8_witness :
    ∃ r, grade stud7 key7 3 = Except.ok r ∧
      r.correct_count + r.incorrect_count + r.unanswered_count = 3 :=
  (c8_counters_sum stud7 key7 3 (by omega)).2

/-- Claim C9: a question index present in the key but absent from the
student's detected map increments `incorrect_count` — only the literal
Unanswered value increments `unanswered_count` — so grading an empty
student map against a key defined on all of 1..N yields
`incorrect_count = N`. -/
theorem c9_absent_counts_incorrect (c : ℕ → Option Answer) (n : ℕ)
    (hc : ∀ q, 1 ≤ q → q ≤ n → (c q).isSome = true) (hn : 1 ≤ n) :
    (∀ x q, (c q).isSome = true →
      gradeStep (fun _ => none) c x q = { x with incorrect := x.incorrect + 1 }) ∧
    ∃ r, grade (fun _ => none) c n = Except.ok r ∧
      r.incorrect_count = n ∧ r.correct_count = 0 ∧ r.unanswered_count = 0 ∧ r.score = 0 := by
  constructor
  · intro x q hq
    exact gradeStep_absent (fun _ => none) c x q rfl hq
  · refine ⟨_, grade_ok (fun _ => none) c n (by omega), ?_⟩
    rw [gradeCounts_empty_student c n hc]
    exact ⟨rfl, rfl, rfl, rfl⟩

/-- Claim C9 witness: the empty student map against the three-question
example key gives three incorrect answers. -/
theorem c9_witness :
    ∃ r, grade (fun _ => none) key7 3 = Except.ok r ∧
      r.incorrect_count = 3 ∧ r.correct_count = 0 ∧ r.unanswered_count = 0 ∧ r.score = 0 :=
  (c9_absent_counts_incorrect key7 3
    (by intro q h1 h2; interval_cases q <;> decide) (by omega)).2

/-- Claim C10: when at least one candidate survives the filter,
`detect_bubbles` returns a 3-tuple whose AnswerKey and CoordinateMap
both have key list exactly 1..num_questions; every answer value is
Unanswered or an option code that is a key of that question's
coordinate row; and every blob of an x-sorted row is recorded in the
coordinate row under its position code (`chr(65 + position)`) with its
bounding box, whether or not the question is Unanswered. -/
theorem c10_detect_invariants (cs : List Contour) (h : cs.filter bubbleFilter ≠ []) :
    ∃ a m, detect_bubbles cs = DetectResult.found a m (rowsOf cs).length ∧
      a.map Prod.fst = List.range' 1 (rowsOf cs).length ∧
      m.map Prod.fst = List.range' 1 (rowsOf cs).length ∧
      (∀ p ∈ a, p.2 = Answer.unanswered ∨
        ∃ i, p.2 = Answer.choice i ∧ ∀ r, (p.1, r) ∈ m → i ∈ r.map Prod.fst) ∧
      (∀ row : List Contour, (rowCoords row).map Prod.fst = List.range (sortRowX row).length ∧
        (rowCoords row).map Prod.snd = (sortRowX row).map rectOf) := by
  refine ⟨_, _, detect_bubbles_found cs h, ?_, ?_, ?_, ?_⟩
  · exact map_fst_enumMap rowAnswer (rowsOf cs) 0
  · exact map_fst_enumMap rowCoords (rowsOf cs) 0
  · intro p hp
    rw [List.mem_map] at hp
    obtain ⟨⟨j, row⟩, hjrow, rfl⟩ := hp
    dsimp only
    by_cases h50 : 50 < listMax (rowFills row)
    · right
      obtain ⟨i, hi1, hi2, hi3, hi4⟩ := rowAnswer_selected row h50
      refine ⟨i, hi4, ?_⟩
      intro r hr
      rw [List.mem_map] at hr
      obtain ⟨⟨j2, row2⟩, hj2, heq⟩ := hr
      have hj2j : j2 = j := by
        have hfst := congrArg Prod.fst heq
        dsimp at hfst
        omega
      have hrowr : rowCoords row2 = r := congrArg Prod.snd heq
      subst hj2j
      have hrow2 : row2 = row := by
        rw [List.mem_enum_iff_getElem?] at hjrow hj2
        dsimp at hjrow hj2
        rw [hjrow] at hj2
        exact (Option.some.inj hj2).symm
      rw [hrow2] at hrowr
      rw [← hrowr, rowCoords_keys, List.mem_range]
      have hlen : (rowFills row).length = (sortRowX row).length := by
        rw [rowFills, List.length_map]
      omega
    · left
      exact rowAnswer_unanswered row (by omega)
  · intro row
    exact ⟨rowCoords_keys row, rowCoords_vals row⟩

/-- Claim C10 witness: the output invariants on a concrete one-bubble
mask. -/
theorem c10_witness :
    ∃ a m, detect_bubbles [cGood] = DetectResult.found a m (rowsOf [cGood]).length ∧
      a.map Prod.fst = List.range' 1 (rowsOf [cGood]).length ∧
      m.map Prod.fst = List.range' 1 (rowsOf [cGood]).length ∧
      (∀ p ∈ a, p.2 = Answer.unanswered ∨
        ∃ i, p.2 = Answer.choice i ∧ ∀ r, (p.1, r) ∈ m → i ∈ r.map Prod.fst) ∧
      (∀ row : List Contour, (rowCoords row).map Prod.fst = List.range (sortRowX row).length ∧
        (rowCoords row).map Prod.snd = (sortRowX row).map rectOf) :=
  c10_detect_invariants [cGood] (by simp [List.filter_cons, cGood_filter])

end Omr
